import Mathlib

/-!
Verification development for the Task-List-Manager repository
(`src/src/components/TaskManager.tsx`, `src/src/App.tsx`).

The task data model, the interaction-controller state (the component's
`useState` hooks), the mutation handlers, the view engine
(`filteredAndSortedTasks`, `getTaskCounts`, `isTaskOverdue`) and the
persistence behaviour (`localStorage` + `JSON.stringify`/`JSON.parse`)
are embedded shallowly below, translated from the TypeScript source.

Modelling conventions:
* JavaScript `Date` objects are represented by their epoch value in
  milliseconds (`Int`), which is what `getTime()`, `isBefore` and
  `Date.now()` observe; `date-fns.isBefore a b` is millisecond `<`, and
  `startOfToday()` is passed in as an explicit day-aligned parameter.
* `number` values reached by this code (ids, times) are integers, so they
  are modelled as `Int`.
* `Array.prototype.sort` is modelled by a comparator-respecting stable
  sort (`jsSort`, an insertion sort).  ECMAScript (ES2023 §23.1.3.30)
  requires the sort to be stable and comparator-consistent whenever the
  comparator is a consistent comparator, which every stable sort realises
  identically; for inconsistent comparators ECMAScript leaves the
  resulting order implementation-defined, and `jsSort` is then one
  conformant implementation.
* `JSON.parse` is embedded as a real JSON grammar parser returning
  `Except`, since the source calls it without any exception handler;
  numeric literals are kept as their source text (their IEEE-754 value is
  never relevant to the claims).  `JSON.stringify` on a task array
  produces the JSON structure captured by `StoredTask`: a `Date` field is
  serialised via `toISOString`, and parsing the resulting text yields the
  very same structure (strings/numbers/booleans/null round-trip through
  JSON text verbatim, and `JSON.parse` performs no `Date` revival).
-/

namespace TaskListManager

/-- The `priority` field: one of `"High" | "Medium" | "Low"`. -/
inductive Priority where
  | High
  | Medium
  | Low
deriving DecidableEq, Repr

/-- The `Task` interface of `TaskManager.tsx` (lines 54-63). `dueDate` is
`Date | null`, modelled as the `Date`'s millisecond epoch value. -/
structure Task where
  id : Int
  text : String
  completed : Bool
  category : String
  priority : Priority
  dueDate : Option Int
  description : String
  expanded : Bool
deriving DecidableEq, Repr

/-- The `categories` constant (line 70). -/
def categories : List String := ["Personal", "Work", "Shopping", "Health", "Other"]

/-- The `sortBy` state: `"priority" | "dueDate"`. -/
inductive SortBy where
  | priority
  | dueDate
deriving DecidableEq, Repr

/-- The component state: one field per `useState` hook of `TaskManager`
(lines 77-92).  The initial `tasks` value is taken in its
empty-storage branch; loading from storage is modelled separately. -/
structure State where
  tasks : List Task
  currentTask : String
  selectedCategory : String
  searchQuery : String
  showNotification : Bool
  notificationMessage : String
  selectedPriority : Priority
  selectedDueDate : Option Int
  taskDescription : String
  sortBy : SortBy
  mobileOpen : Bool
deriving DecidableEq, Repr

/-- The initial state: every `useState` default, with `tasks` from the
empty-storage branch of the initializer. -/
def initState : State :=
  { tasks := []
    currentTask := ""
    selectedCategory := "All"
    searchQuery := ""
    showNotification := false
    notificationMessage := ""
    selectedPriority := Priority.Medium
    selectedDueDate := none
    taskDescription := ""
    sortBy := SortBy.priority
    mobileOpen := false }

/-- `showSuccessMessage` (lines 102-105). -/
def showSuccessMessage (message : String) (s : State) : State :=
  { s with notificationMessage := message, showNotification := true }

/-- The code points `String.prototype.trim` strips: ECMAScript
`WhiteSpace` (tab, VT, FF, space, NBSP, BOM and the Unicode
space-separator category) and `LineTerminator` (LF, CR, LS, PS). -/
def jsWhitespace (c : Char) : Bool :=
  c = ' ' ∨ c = '\t' ∨ c = '\n' ∨ c = '\r' ∨ c = Char.ofNat 11 ∨ c = Char.ofNat 12 ∨
    c = Char.ofNat 0xa0 ∨ c = Char.ofNat 0xfeff ∨ c = Char.ofNat 0x1680 ∨
    (Char.ofNat 0x2000 ≤ c ∧ c ≤ Char.ofNat 0x200a) ∨ c = Char.ofNat 0x2028 ∨
    c = Char.ofNat 0x2029 ∨ c = Char.ofNat 0x202f ∨ c = Char.ofNat 0x205f ∨
    c = Char.ofNat 0x3000

/-- JavaScript `String.prototype.trim`: strip leading and trailing
whitespace and line terminators. -/
def jsTrim (s : String) : String :=
  String.mk (((s.toList.dropWhile jsWhitespace).reverse.dropWhile jsWhitespace).reverse)

/-- JavaScript `String.prototype.toLowerCase` as exercised here: the
Unicode default case mapping on the ASCII range (the only mapping the
claims' concrete inputs reach; letters `A`-`Z` map to `a`-`z`). -/
def jsCharLower (c : Char) : Char :=
  if 'A' ≤ c ∧ c ≤ 'Z' then Char.ofNat (c.toNat + 32) else c

/-- Lower-casing of a whole string. -/
def jsToLower (s : String) : String :=
  String.mk (s.toList.map jsCharLower)

/-- `handleAddTask` (lines 107-125).  The guard `if (currentTask.trim())`
tests JavaScript string truthiness, i.e. that the trimmed title is
non-empty.  `id` is `Date.now()`, passed in as `now`. -/
def handleAddTask (now : Int) (s : State) : State :=
  if jsTrim s.currentTask = "" then s
  else
    let newTask : Task :=
      { id := now
        text := jsTrim s.currentTask
        completed := false
        category := if s.selectedCategory == "All" then "Other" else s.selectedCategory
        priority := s.selectedPriority
        dueDate := s.selectedDueDate
        description := s.taskDescription
        expanded := false }
    showSuccessMessage "Task added successfully!"
      { s with tasks := s.tasks ++ [newTask]
               currentTask := ""
               taskDescription := ""
               selectedDueDate := none }

/-- `handleDeleteTask` (lines 127-130). -/
def handleDeleteTask (taskId : Int) (s : State) : State :=
  showSuccessMessage "Task deleted successfully!"
    { s with tasks := s.tasks.filter (fun task => task.id != taskId) }

/-- `handleToggleComplete` (lines 132-139). -/
def handleToggleComplete (taskId : Int) (s : State) : State :=
  showSuccessMessage "Task status updated!"
    { s with tasks := s.tasks.map (fun task =>
        if task.id == taskId then { task with completed := !task.completed } else task) }

/-- `handleToggleExpand` (lines 141-147); no notification. -/
def handleToggleExpand (taskId : Int) (s : State) : State :=
  { s with tasks := s.tasks.map (fun task =>
      if task.id == taskId then { task with expanded := !task.expanded } else task) }

/-- The category selections the UI offers: the drawer's three
pseudo-category buttons (lines 223-258) plus the form's `Select` menu
(`All` and the five real categories, lines 421-432). -/
inductive SelCat where
  | all
  | highPriority
  | dueToday
  | personal
  | work
  | shopping
  | health
  | other
deriving DecidableEq, Repr

/-- The string each selectable item stores into `selectedCategory`. -/
def selCatName : SelCat → String
  | SelCat.all => "All"
  | SelCat.highPriority => "High Priority"
  | SelCat.dueToday => "Due Today"
  | SelCat.personal => "Personal"
  | SelCat.work => "Work"
  | SelCat.shopping => "Shopping"
  | SelCat.health => "Health"
  | SelCat.other => "Other"

/-- The user events the component wires to state changes. -/
inductive Event where
  | setCurrent (text : String)
  | selectCategory (c : SelCat)
  | setPriority (p : Priority)
  | setDueDate (d : Option Int)
  | setDescription (d : String)
  | addTask (now : Int)
  | deleteTask (i : Int)
  | toggleComplete (i : Int)
  | toggleExpand (i : Int)
  | setSearch (q : String)
  | setSort (sb : SortBy)

/-- One user event, dispatched to the handler the component wires it to. -/
def step (s : State) : Event → State
  | Event.setCurrent t => { s with currentTask := t }
  | Event.selectCategory c => { s with selectedCategory := selCatName c }
  | Event.setPriority p => { s with selectedPriority := p }
  | Event.setDueDate d => { s with selectedDueDate := d }
  | Event.setDescription d => { s with taskDescription := d }
  | Event.addTask now => handleAddTask now s
  | Event.deleteTask i => handleDeleteTask i s
  | Event.toggleComplete i => handleToggleComplete i s
  | Event.toggleExpand i => handleToggleExpand i s
  | Event.setSearch q => { s with searchQuery := q }
  | Event.setSort sb => { s with sortBy := sb }

/-- A run of the component: a sequence of user events from a state. -/
def run (s : State) (evs : List Event) : State := evs.foldl step s

/-- Whether the character list starts with the given needle. -/
def listStartsWith : List Char → List Char → Bool
  | _, [] => true
  | [], _ :: _ => false
  | a :: as, b :: bs => a == b && listStartsWith as bs

/-- Whether the needle occurs as a contiguous run inside the haystack. -/
def listContainsSub : List Char → List Char → Bool
  | [], needle => needle.isEmpty
  | a :: as, needle => listStartsWith (a :: as) needle || listContainsSub as needle

/-- JavaScript `String.prototype.includes`: contiguous-substring test. -/
def strIncludes (hay needle : String) : Bool :=
  listContainsSub hay.toList needle.toList

/-- The filtering predicate of `filteredAndSortedTasks` (lines 187-194):
`matchesSearch && matchesCategory`, where `matchesSearch` is a
case-insensitive substring test of the search query against the task
text, and `matchesCategory` is `selectedCategory === "All" ||
task.category === selectedCategory`. -/
def taskMatchesFilter (searchQuery selectedCategory : String) (task : Task) : Bool :=
  let matchesSearch := strIncludes (jsToLower task.text) (jsToLower searchQuery)
  let matchesCategory := selectedCategory == "All" || task.category == selectedCategory
  matchesSearch && matchesCategory

/-- The `priorityOrder` table (line 198): `{ High: 0, Medium: 1, Low: 2 }`. -/
def priorityOrder : Priority → Int
  | Priority.High => 0
  | Priority.Medium => 1
  | Priority.Low => 2

/-- The sort comparator of `filteredAndSortedTasks` (lines 196-205).  For
`"priority"` it is the difference of `priorityOrder` entries; for
`"dueDate"` it returns `1` when `a` has no due date (note: also when both
have none), `-1` when only `b` has none, and otherwise the difference of
the two `getTime()` values. -/
def taskCmp : SortBy → Task → Task → Int
  | SortBy.priority, a, b => priorityOrder a.priority - priorityOrder b.priority
  | SortBy.dueDate, a, b =>
    match a.dueDate, b.dueDate with
    | none, _ => 1
    | some _, none => -1
    | some da, some db => da - db

/-- Insert an element into a list in front of the first element the
comparator does not place strictly after it. -/
def jsInsert (cmp : α → α → Int) (a : α) : List α → List α
  | [] => [a]
  | b :: l => if cmp a b ≤ 0 then a :: b :: l else b :: jsInsert cmp a l

/-- Model of `Array.prototype.sort` with a comparator: a
comparator-respecting stable sort (insertion sort).  For consistent
comparators this coincides with every conformant ECMAScript
implementation (the spec then mandates a unique stable comparator-sorted
order); for inconsistent comparators ECMAScript leaves the order
implementation-defined and this is one conformant outcome. -/
def jsSort (cmp : α → α → Int) : List α → List α
  | [] => []
  | a :: l => jsInsert cmp a (jsSort cmp l)

/-- The `filteredAndSortedTasks` memo (lines 186-206): filter by search
and category, then sort the filtered copy with the selected comparator. -/
def filteredAndSortedTasks (tasks : List Task) (searchQuery selectedCategory : String)
    (sortBy : SortBy) : List Task :=
  jsSort (taskCmp sortBy) (tasks.filter (taskMatchesFilter searchQuery selectedCategory))

/-- The view derivation with the arrays it touches made explicit:
`tasks.filter(...)` allocates a fresh array, and `Array.prototype.sort`
then mutates that fresh array in place (its receiver is `filtered`, never
the component's `tasks` array).  The pair holds the `tasks` array as the
computation leaves it together with the derived view. -/
def deriveView (tasks : List Task) (searchQuery selectedCategory : String)
    (sortBy : SortBy) : List Task × List Task :=
  let filtered := tasks.filter (taskMatchesFilter searchQuery selectedCategory)
  let sorted := jsSort (taskCmp sortBy) filtered
  (tasks, sorted)

/-- `isTaskOverdue` (lines 168-171): false for a missing due date, else
`isBefore(dueDate, startOfToday())`, i.e. millisecond `<` against the
start of the current day (passed in as `todayStart`). -/
def isTaskOverdue (dueDate : Option Int) (todayStart : Int) : Bool :=
  match dueDate with
  | none => false
  | some d => decide (d < todayStart)

/-- The record returned by `getTaskCounts`. -/
structure Counts where
  total : Nat
  completed : Nat
  overdue : Nat
  highPriority : Nat
deriving DecidableEq, Repr

/-- `getTaskCounts` (lines 173-184). -/
def getTaskCounts (tasks : List Task) (todayStart : Int) : Counts :=
  { total := tasks.length
    completed := (tasks.filter (fun task => task.completed)).length
    overdue := (tasks.filter (fun task =>
      task.dueDate.isSome && isTaskOverdue task.dueDate todayStart)).length
    highPriority := (tasks.filter (fun task =>
      decide (task.priority = Priority.High) && !task.completed)).length }

/-- Follows the spec's words, for comparison with `isTaskOverdue`: a task
is overdue when its due date is present and its calendar day (at day
granularity, i.e. the floor of the epoch value divided by the
86 400 000 ms of a day) is strictly before the current day. -/
def specOverdueDay (today : Int) (task : Task) : Bool :=
  match task.dueDate with
  | none => false
  | some d => decide (d / 86400000 < today)

/-- Decimal rendering of a natural number left-padded with zeros. -/
def padNat (len : Nat) (n : Nat) : String :=
  let s := toString n
  String.mk (List.replicate (len - s.length) '0') ++ s

/-- Proleptic-Gregorian civil date `(year, month, day)` from a count of
days since 1970-01-01 (the days-from-civil inverse used by every epoch
conversion; all divisions are floor divisions). -/
def civilFromDays (z0 : Int) : Int × Int × Int :=
  let z := z0 + 719468
  let era := z / 146097
  let doe := z % 146097
  let yoe := (doe - doe / 1460 + doe / 36524 - doe / 146096) / 365
  let y := yoe + era * 400
  let doy := doe - (365 * yoe + yoe / 4 - yoe / 100)
  let mp := (5 * doy + 2) / 153
  let d := doy - (153 * mp + 2) / 5 + 1
  let m := mp + (if mp < 10 then 3 else -9)
  (y + (if m ≤ 2 then 1 else 0), m, d)

/-- The year component of `Date.prototype.toISOString`: four padded
digits, or the extended `±YYYYYY` form outside `0000`-`9999`. -/
def isoYear (y : Int) : String :=
  if y < 0 then "-" ++ padNat 6 (-y).toNat
  else if y > 9999 then "+" ++ padNat 6 y.toNat
  else padNat 4 y.toNat

/-- `Date.prototype.toISOString` on the date holding the given epoch
millisecond value: `YYYY-MM-DDTHH:mm:ss.sssZ` in UTC. -/
def isoString (ms : Int) : String :=
  let days := ms / 86400000
  let rem := (ms % 86400000).toNat
  let ymd := civilFromDays days
  isoYear ymd.1 ++ "-" ++ padNat 2 ymd.2.1.toNat ++ "-" ++ padNat 2 ymd.2.2.toNat
    ++ "T" ++ padNat 2 (rem / 3600000) ++ ":" ++ padNat 2 (rem / 60000 % 60)
    ++ ":" ++ padNat 2 (rem / 1000 % 60) ++ "." ++ padNat 3 (rem % 1000) ++ "Z"

/-- The string each priority serialises to. -/
def priorityName : Priority → String
  | Priority.High => "High"
  | Priority.Medium => "Medium"
  | Priority.Low => "Low"

/-- The JSON object `JSON.stringify` produces for one task, which is also
exactly what `JSON.parse` hands back when the persisted text is loaded
(lines 94-96 save, lines 77-80 load): strings, integral numbers, booleans
and `null` round-trip through JSON text verbatim, a `Date` is serialised
as its `toISOString` text, and `JSON.parse` performs no `Date` revival,
so a persisted due date comes back as a plain string. -/
structure StoredTask where
  id : Int
  text : String
  completed : Bool
  category : String
  priority : String
  dueDate : Option String
  description : String
  expanded : Bool
deriving DecidableEq, Repr

/-- Serialisation of one task by `JSON.stringify` followed by
`JSON.parse` of the produced text. -/
def storeTask (t : Task) : StoredTask :=
  { id := t.id
    text := t.text
    completed := t.completed
    category := t.category
    priority := priorityName t.priority
    dueDate := t.dueDate.map isoString
    description := t.description
    expanded := t.expanded }

/-- The persistent round trip on the whole collection: the save effect
(line 95, `JSON.stringify(tasks)` into the storage key) followed by the
load (line 79, `JSON.parse` of the stored text), which the component then
uses directly as its task array. -/
def saveThenLoad (tasks : List Task) : List StoredTask :=
  tasks.map storeTask

/-- JSON values as returned by `JSON.parse`.  A numeric literal is kept
as its source text: the claims never depend on its IEEE-754 value. -/
inductive Json where
  | jnull
  | jbool (b : Bool)
  | jnum (raw : String)
  | jstr (s : String)
  | jarr (elems : List Json)
  | jobj (fields : List (String × Json))

/-- Skip JSON insignificant whitespace. -/
def skipWs : List Char → List Char
  | c :: cs => if c = ' ' ∨ c = '\t' ∨ c = '\n' ∨ c = '\r' then skipWs cs else c :: cs
  | [] => []

/-- Parse the four hex digits of a `\u` escape. -/
def parseHex4 : List Char → Option (Nat × List Char)
  | c1 :: c2 :: c3 :: c4 :: rest =>
    let digit := fun (c : Char) =>
      if '0' ≤ c ∧ c ≤ '9' then some (c.toNat - '0'.toNat)
      else if 'a' ≤ c ∧ c ≤ 'f' then some (c.toNat - 'a'.toNat + 10)
      else if 'A' ≤ c ∧ c ≤ 'F' then some (c.toNat - 'A'.toNat + 10)
      else none
    match digit c1, digit c2, digit c3, digit c4 with
    | some d1, some d2, some d3, some d4 =>
      some (((d1 * 16 + d2) * 16 + d3) * 16 + d4, rest)
    | _, _, _, _ => none
  | _ => none

/-- Parse the body of a JSON string literal after the opening quote,
returning the decoded characters and the input after the closing quote.
Code points from `\u` escapes are mapped through `Char.ofNat` (lone
surrogates, unrepresentable in Lean strings, fall back to the null
character; no claim depends on them). -/
def parseStringBody : List Char → Option (List Char × List Char)
  | [] => none
  | '"' :: rest => some ([], rest)
  | '\\' :: 'u' :: c1 :: c2 :: c3 :: c4 :: rest =>
    match parseHex4 [c1, c2, c3, c4] with
    | some (code, _) =>
      match parseStringBody rest with
      | some (cs, rem) => some (Char.ofNat code :: cs, rem)
      | none => none
    | none => none
  | '\\' :: e :: rest =>
    let decoded : Option Char :=
      match e with
      | '"' => some '"'
      | '\\' => some '\\'
      | '/' => some '/'
      | 'b' => some (Char.ofNat 8)
      | 'f' => some (Char.ofNat 12)
      | 'n' => some '\n'
      | 'r' => some '\r'
      | 't' => some '\t'
      | _ => none
    match decoded with
    | some c =>
      match parseStringBody rest with
      | some (cs, rem) => some (c :: cs, rem)
      | none => none
    | none => none
  | c :: rest =>
    if c.toNat < 32 then none
    else
      match parseStringBody rest with
      | some (cs, rem) => some (c :: cs, rem)
      | none => none

/-- Take a maximal run of decimal digits. -/
def takeDigits : List Char → List Char × List Char
  | c :: cs =>
    if '0' ≤ c ∧ c ≤ '9' then
      let r := takeDigits cs
      (c :: r.1, r.2)
    else ([], c :: cs)
  | [] => ([], [])

/-- Parse a JSON numeric literal (returned as its source text):
`-? (0 | [1-9][0-9]*) (\. [0-9]+)? ([eE] [+-]? [0-9]+)?`. -/
def parseNumber (input : List Char) : Option (String × List Char) :=
  let afterSign := fun (body : List Char) (sign : List Char) =>
    match takeDigits body with
    | ([], _) => none
    | (ds, rest) =>
      if ds.length > 1 ∧ ds.headD '0' = '0' then none
      else
        let withFrac :=
          match rest with
          | '.' :: fr =>
            match takeDigits fr with
            | ([], _) => none
            | (fs, rest2) => some (ds ++ '.' :: fs, rest2)
          | _ => some (ds, rest)
        match withFrac with
        | none => none
        | some (mant, rest2) =>
          match rest2 with
          | 'e' :: ex =>
            match ex with
            | '+' :: ex2 =>
              match takeDigits ex2 with
              | ([], _) => none
              | (es, rest3) => some (String.mk (sign ++ mant ++ 'e' :: '+' :: es), rest3)
            | '-' :: ex2 =>
              match takeDigits ex2 with
              | ([], _) => none
              | (es, rest3) => some (String.mk (sign ++ mant ++ 'e' :: '-' :: es), rest3)
            | _ =>
              match takeDigits ex with
              | ([], _) => none
              | (es, rest3) => some (String.mk (sign ++ mant ++ 'e' :: es), rest3)
          | 'E' :: ex =>
            match ex with
            | '+' :: ex2 =>
              match takeDigits ex2 with
              | ([], _) => none
              | (es, rest3) => some (String.mk (sign ++ mant ++ 'E' :: '+' :: es), rest3)
            | '-' :: ex2 =>
              match takeDigits ex2 with
              | ([], _) => none
              | (es, rest3) => some (String.mk (sign ++ mant ++ 'E' :: '-' :: es), rest3)
            | _ =>
              match takeDigits ex with
              | ([], _) => none
              | (es, rest3) => some (String.mk (sign ++ mant ++ 'E' :: es), rest3)
          | _ => some (String.mk (sign ++ mant), rest2)
  match input with
  | '-' :: body => afterSign body ['-']
  | body => afterSign body []

mutual

/-- Parse one JSON value (leading whitespace already skipped).  The fuel
argument only bounds the nesting recursion; it is instantiated with the
input length, which nesting can never exceed. -/
def parseValue : Nat → List Char → Except String (Json × List Char)
  | _, [] => Except.error "unexpected end of JSON input"
  | fuel, c :: rest =>
    match fuel with
    | 0 => Except.error "nesting exceeds input length"
    | fuel + 1 =>
      if c = 'n' then
        match rest with
        | 'u' :: 'l' :: 'l' :: rem => Except.ok (Json.jnull, rem)
        | _ => Except.error "unexpected token"
      else if c = 't' then
        match rest with
        | 'r' :: 'u' :: 'e' :: rem => Except.ok (Json.jbool true, rem)
        | _ => Except.error "unexpected token"
      else if c = 'f' then
        match rest with
        | 'a' :: 'l' :: 's' :: 'e' :: rem => Except.ok (Json.jbool false, rem)
        | _ => Except.error "unexpected token"
      else if c = '"' then
        match parseStringBody rest with
        | some (cs, rem) => Except.ok (Json.jstr (String.mk cs), rem)
        | none => Except.error "bad string literal"
      else if c = '[' then
        match skipWs rest with
        | ']' :: rem => Except.ok (Json.jarr [], rem)
        | rem => parseArrayItems fuel rem []
      else if c = '{' then
        match skipWs rest with
        | '}' :: rem => Except.ok (Json.jobj [], rem)
        | rem => parseObjItems fuel rem []
      else
        match parseNumber (c :: rest) with
        | some (raw, rem) => Except.ok (Json.jnum raw, rem)
        | none => Except.error "unexpected token"

/-- Parse the comma-separated items of an array after `[`. -/
def parseArrayItems : Nat → List Char → List Json → Except String (Json × List Char)
  | 0, _, _ => Except.error "nesting exceeds input length"
  | fuel + 1, input, acc =>
    match parseValue fuel input with
    | Except.error e => Except.error e
    | Except.ok (v, rem) =>
      match skipWs rem with
      | ',' :: rem2 => parseArrayItems fuel (skipWs rem2) (v :: acc)
      | ']' :: rem2 => Except.ok (Json.jarr (v :: acc).reverse, rem2)
      | _ => Except.error "expected comma or closing bracket in array"

/-- Parse the comma-separated members of an object after `{`. -/
def parseObjItems : Nat → List Char → List (String × Json) →
    Except String (Json × List Char)
  | 0, _, _ => Except.error "nesting exceeds input length"
  | fuel + 1, input, acc =>
    match input with
    | '"' :: rest =>
      match parseStringBody rest with
      | none => Except.error "bad string literal"
      | some (key, rem) =>
        match skipWs rem with
        | ':' :: rem2 =>
          match parseValue fuel (skipWs rem2) with
          | Except.error e => Except.error e
          | Except.ok (v, rem3) =>
            match skipWs rem3 with
            | ',' :: rem4 => parseObjItems fuel (skipWs rem4) ((String.mk key, v) :: acc)
            | '}' :: rem4 => Except.ok (Json.jobj ((String.mk key, v) :: acc).reverse, rem4)
            | _ => Except.error "expected comma or closing brace in object"
        | _ => Except.error "expected colon in object"
    | _ => Except.error "expected property name"

end

/-- `JSON.parse`, which either returns the parsed value or throws a
`SyntaxError` (the error branch of the `Except`). -/
def jsonParse (s : String) : Except String Json :=
  match parseValue (s.length + 1) (skipWs s.toList) with
  | Except.ok (v, rest) =>
    match skipWs rest with
    | [] => Except.ok v
    | _ => Except.error "unexpected trailing characters"
  | Except.error e => Except.error e

/-- The `useState` initializer for `tasks` (lines 77-80): read the
storage slot, and on a truthy value (a non-empty stored string) return
`JSON.parse(savedTasks)` with no exception handling; otherwise the empty
array.  The parse result is used directly as the task array. -/
def loadInitialTasks (stored : Option String) : Except String Json :=
  match stored with
  | none => Except.ok (Json.jarr [])
  | some s => if s = "" then Except.ok (Json.jarr []) else jsonParse s

/-- The `useState` initializer for the theme in `App.tsx` (lines 6-9):
`savedTheme ? JSON.parse(savedTheme) : false`, again unguarded. -/
def loadInitialTheme (stored : Option String) : Except String Json :=
  match stored with
  | none => Except.ok (Json.jbool false)
  | some s => if s = "" then Except.ok (Json.jbool false) else jsonParse s

/-- The ordering the due-date sort is specified to produce between two
tasks placed in this relative order: a task without a due date is never
followed by a task with one, and tasks with due dates appear in
non-decreasing date order. -/
def dueOrder (a b : Task) : Prop :=
  (a.dueDate = none → b.dueDate = none) ∧
  (∀ da db, a.dueDate = some da → b.dueDate = some db → da ≤ db)

/-- A task without a due date, for concrete inputs. -/
def taskNoDateA : Task :=
  { id := 1, text := "alpha", completed := false, category := "Personal"
    priority := Priority.Medium, dueDate := none, description := "", expanded := false }

/-- A second task without a due date, distinct from `taskNoDateA`. -/
def taskNoDateB : Task :=
  { id := 2, text := "beta", completed := false, category := "Personal"
    priority := Priority.Medium, dueDate := none, description := "", expanded := false }

/-- A high-priority incomplete task in a real category. -/
def taskHighPersonal : Task :=
  { id := 3, text := "urgent", completed := false, category := "Personal"
    priority := Priority.High, dueDate := none, description := "", expanded := false }

/-- A task whose category field holds the pseudo-category string (such a
task is reachable: see the theorem about the add handler). -/
def taskPseudoCat : Task :=
  { id := 4, text := "odd", completed := false, category := "High Priority"
    priority := Priority.Low, dueDate := none, description := "", expanded := false }

/-- A task whose due date is the epoch instant (a concrete `Date`). -/
def taskWithEpochDue : Task :=
  { id := 5, text := "dated", completed := false, category := "Work"
    priority := Priority.Medium, dueDate := some 0, description := "", expanded := false }

/-- A state whose draft title is whitespace-only. -/
def blankTitleState : State :=
  { initState with
      currentTask := "   "
      tasks := [taskNoDateA]
      selectedCategory := "Work"
      taskDescription := "draft" }

/-- Membership in an insertion result. -/
theorem mem_jsInsert {α} (cmp : α → α → Int) (a x : α) (l : List α) :
    x ∈ jsInsert cmp a l ↔ x = a ∨ x ∈ l := by
  induction l with
  | nil => simp [jsInsert]
  | cons b t ih =>
    by_cases h : cmp a b ≤ 0 <;> simp [jsInsert, h, ih]
    tauto

/-- Inserting one element preserves pairwise `Q`, for any `Q` compatible
with the comparator in the three ways the insertion position uses it. -/
theorem pairwise_jsInsert {α} (cmp : α → α → Int) (Q : α → α → Prop)
    (H1 : ∀ a b, cmp a b ≤ 0 → Q a b)
    (H2 : ∀ a b c, cmp a b ≤ 0 → Q b c → Q a c)
    (H3 : ∀ a b, ¬ cmp a b ≤ 0 → Q b a)
    (a : α) (l : List α) (hl : l.Pairwise Q) :
    (jsInsert cmp a l).Pairwise Q := by
  induction l with
  | nil => simp [jsInsert]
  | cons b t ih =>
    rcases List.pairwise_cons.mp hl with ⟨hb, ht⟩
    by_cases h : cmp a b ≤ 0
    · simp only [jsInsert, if_pos h]
      refine List.pairwise_cons.mpr ⟨?_, hl⟩
      intro x hx
      rcases List.mem_cons.mp hx with rfl | hxt
      · exact H1 a x h
      · exact H2 a b x h (hb x hxt)
    · simp only [jsInsert, if_neg h]
      refine List.pairwise_cons.mpr ⟨?_, ih ht⟩
      intro x hx
      rcases (mem_jsInsert cmp a x t).mp hx with rfl | hxt
      · exact H3 x b h
      · exact hb x hxt

/-- The sorted list is pairwise ordered by any relation compatible with
the comparator. -/
theorem pairwise_jsSort {α} (cmp : α → α → Int) (Q : α → α → Prop)
    (H1 : ∀ a b, cmp a b ≤ 0 → Q a b)
    (H2 : ∀ a b c, cmp a b ≤ 0 → Q b c → Q a c)
    (H3 : ∀ a b, ¬ cmp a b ≤ 0 → Q b a)
    (l : List α) : (jsSort cmp l).Pairwise Q := by
  induction l with
  | nil => simp [jsSort]
  | cons a t ih => exact pairwise_jsInsert cmp Q H1 H2 H3 a (jsSort cmp t) ih

/-- Elements singled out by a predicate on which the comparator never
orders strictly keep their relative positions under insertion. -/
theorem filter_jsInsert {α} (cmp : α → α → Int) (p : α → Bool)
    (h1 : ∀ x y, p x = true → p y = true → cmp x y ≤ 0)
    (a : α) (l : List α) :
    (jsInsert cmp a l).filter p = if p a then a :: l.filter p else l.filter p := by
  induction l with
  | nil => simp only [jsInsert, List.filter_cons, List.filter_nil]
  | cons b t ih =>
    by_cases h : cmp a b ≤ 0
    · simp only [jsInsert, if_pos h]
      by_cases hpa : p a <;> simp [List.filter_cons, hpa]
    · simp only [jsInsert, if_neg h]
      by_cases hpa : p a
      · have hpb : p b = false := by
          cases hb : p b
          · rfl
          · exact absurd (h1 a b hpa hb) h
        simp [List.filter_cons, hpb, ih, hpa]
      · simp only [if_neg hpa] at ih
        by_cases hpb : p b <;> simp [List.filter_cons, hpb, ih, hpa]

/-- Stability of the sort on the elements singled out by a predicate on
which the comparator never orders strictly: they come out in their
original relative order. -/
theorem filter_jsSort {α} (cmp : α → α → Int) (p : α → Bool)
    (h1 : ∀ x y, p x = true → p y = true → cmp x y ≤ 0)
    (l : List α) : (jsSort cmp l).filter p = l.filter p := by
  induction l with
  | nil => simp [jsSort]
  | cons a t ih =>
    simp only [jsSort, filter_jsInsert cmp p h1 a (jsSort cmp t), ih, List.filter_cons]

/-- C1: the claim states that in every reachable state every task's
category is one of the five real categories, and that add never creates a
task with category "All", "High Priority" or "Due Today".  The code
violates this: `handleAddTask` only remaps the selection "All" to
"Other", so after the reachable drawer selection "High Priority" an add
creates a task whose `category` field is the pseudo-category
"High Priority", which is not in the fixed `categories` set. -/
theorem addTask_creates_pseudo_category_task :
    (run initState [Event.selectCategory SelCat.highPriority, Event.setCurrent "x",
        Event.addTask 1000]).tasks.map Task.category = ["High Priority"] ∧
      "High Priority" ∉ categories := by
  decide

/-- C2: the claim states that save followed by load yields an equivalent
collection, with `dueDate` still an optional calendar date.  The code
violates this: `JSON.stringify` serialises the `Date` as its ISO string
and `JSON.parse` performs no revival, so a task saved with the epoch due
date is loaded with a plain string in its `dueDate` field instead of a
date value. -/
theorem save_load_turns_dueDate_into_string :
    taskWithEpochDue.dueDate = some 0 ∧
      (saveThenLoad [taskWithEpochDue]).map StoredTask.dueDate
        = [some "1970-01-01T00:00:00.000Z"] := by
  exact ⟨rfl, rfl⟩

/-- C3: the claim states that the pseudo-category selections
"High Priority" and "Due Today" are not resolved through the
category-equality check.  The code violates this: the selection is passed
straight into `task.category === selectedCategory`, so with the
"High Priority" selection active a genuinely high-priority incomplete
task in a real category is excluded from the view, while a task whose
category string happens to equal "High Priority" is included. -/
theorem pseudo_category_filter_uses_equality :
    taskHighPersonal.priority = Priority.High ∧ taskHighPersonal.completed = false ∧
      filteredAndSortedTasks [taskHighPersonal, taskPseudoCat] "" "High Priority"
        SortBy.priority = [taskPseudoCat] := by
  decide

/-- C4: the claim states that a malformed persisted value must load as an
empty collection (and default theme) without crashing.  The code violates
this: both `useState` initializers call `JSON.parse` with no exception
handler, so a malformed stored string makes the load throw a
`SyntaxError` (the error branch) instead of producing the empty array or
the default theme. -/
theorem malformed_persisted_state_crashes_load :
    loadInitialTasks (some "\x7b") = Except.error "expected property name" ∧
      loadInitialTheme (some "\x7d") = Except.error "unexpected token" := by
  exact ⟨rfl, rfl⟩

/-- C7: the claim states that every add assigns a fresh id distinct from
every existing task's id, including two adds at the same creation
timestamp.  The code violates this: the id is `Date.now()`, so two adds
within the same millisecond assign the same id to both tasks. -/
theorem same_timestamp_adds_collide :
    (run initState [Event.setCurrent "a", Event.addTask 1000, Event.setCurrent "b",
        Event.addTask 1000]).tasks.map Task.id = [1000, 1000] ∧
      ¬ ((run initState [Event.setCurrent "a", Event.addTask 1000, Event.setCurrent "b",
        Event.addTask 1000]).tasks.map Task.id).Nodup := by
  decide

/-- C5 (counterexample): the claim states that pairs of date-less tasks
keep their original collection order under the due-date sort.  The
comparator returns `1` for a date-less pair in either orientation (an
inconsistent comparator, for which ECMAScript leaves the resulting order
implementation-defined), and the comparator-respecting stable sort swaps
the two date-less tasks. -/
theorem dueDate_sort_swaps_dateless_pair :
    filteredAndSortedTasks [taskNoDateA, taskNoDateB] "" "All" SortBy.dueDate
        = [taskNoDateB, taskNoDateA] ∧
      ([taskNoDateB, taskNoDateA] : List Task) ≠ [taskNoDateA, taskNoDateB] := by
  decide

/-- C8: add with an empty or whitespace-only title is a silent no-op: the
handler leaves the whole state unchanged, so the task collection is
untouched and no notification is raised. -/
theorem add_blank_title_noop (s : State) (now : Int)
    (h : jsTrim s.currentTask = "") : handleAddTask now s = s := by
  simp [handleAddTask, h]

/-- C8 witness: a concrete state with a whitespace-only draft title. -/
theorem add_blank_title_noop_witness :
    jsTrim blankTitleState.currentTask = "" ∧ handleAddTask 99 blankTitleState = blankTitleState :=
  ⟨by decide, add_blank_title_noop blankTitleState 99 (by decide)⟩

/-- C10: computing the derived view has no side effect on the task store:
the derivation leaves the `tasks` array exactly as it was (the in-place
sort acts on the fresh array produced by filter), and the view it yields
is the pure filter-then-sort function of the state. -/
theorem view_derivation_pure (tasks : List Task) (searchQuery selectedCategory : String)
    (sortBy : SortBy) :
    (deriveView tasks searchQuery selectedCategory sortBy).1 = tasks ∧
      (deriveView tasks searchQuery selectedCategory sortBy).2
        = filteredAndSortedTasks tasks searchQuery selectedCategory sortBy :=
  ⟨rfl, rfl⟩

/-- C6: sorting by priority orders the view ascending with
`High < Medium < Low` (the `priorityOrder` table) and is stable: for each
priority, the tasks of that priority appear in exactly their original
collection order (which yields, e.g., A before C for insertion order
[A(High), B(Low), C(High)]). -/
theorem priority_sort_sorted_and_stable (tasks : List Task) (query cat : String) :
    (filteredAndSortedTasks tasks query cat SortBy.priority).Pairwise
        (fun a b => priorityOrder a.priority ≤ priorityOrder b.priority) ∧
      ∀ p : Priority,
        (filteredAndSortedTasks tasks query cat SortBy.priority).filter
            (fun t => decide (t.priority = p))
          = tasks.filter (fun t => taskMatchesFilter query cat t && decide (t.priority = p)) := by
  constructor
  · apply pairwise_jsSort
    · intro a b h
      simp only [taskCmp] at h
      omega
    · intro a b c h1 h2
      simp only [taskCmp] at h1
      omega
    · intro a b h
      simp only [taskCmp] at h
      omega
  · intro p
    rw [filteredAndSortedTasks, filter_jsSort, List.filter_filter]
    · exact List.filter_congr fun a _ => Bool.and_comm _ _
    · intro x y hx hy
      simp only [decide_eq_true_eq] at hx hy
      simp [taskCmp, hx, hy]

/-- C5 (amended): sorting by due date places every task without a due
date after every task with one and orders the dated tasks ascending by
their date value (`dueOrder` pairwise), and tasks sharing one due date
keep their original collection order; the relative order among the
date-less tasks themselves is not preserved (see the counterexample),
because the comparator orders every date-less pair inconsistently and
ECMAScript then leaves their order implementation-defined. -/
theorem dueDate_sort_spec_amended (tasks : List Task) (query cat : String) :
    (filteredAndSortedTasks tasks query cat SortBy.dueDate).Pairwise dueOrder ∧
      ∀ d : Int,
        (filteredAndSortedTasks tasks query cat SortBy.dueDate).filter
            (fun t => decide (t.dueDate = some d))
          = tasks.filter (fun t => taskMatchesFilter query cat t && decide (t.dueDate = some d)) := by
  constructor
  · apply pairwise_jsSort
    · intro a b h
      cases ha : a.dueDate <;> cases hb : b.dueDate <;> simp_all [taskCmp, dueOrder]
    · intro a b c h1 h2
      cases ha : a.dueDate <;> cases hb : b.dueDate <;> cases hc : c.dueDate <;>
        simp_all [taskCmp, dueOrder]
      all_goals omega
    · intro a b h
      cases ha : a.dueDate <;> cases hb : b.dueDate <;> simp_all [taskCmp, dueOrder]
      all_goals omega
  · intro d
    rw [filteredAndSortedTasks, filter_jsSort, List.filter_filter]
    · exact List.filter_congr fun a _ => Bool.and_comm _ _
    · intro x y hx hy
      simp only [decide_eq_true_eq] at hx hy
      simp [taskCmp, hx, hy]

/-- C9: the aggregate counts are exactly as specified: `total` is the
number of tasks, `completed` the number with `completed = true`,
`overdue` the number whose due date is present and strictly before the
current calendar day at day granularity (with `startOfToday()` the
day-aligned instant `today * 86400000`), counted independently of the
completed status, and `highPriority` the number of incomplete
high-priority tasks. -/
theorem getTaskCounts_spec (tasks : List Task) (today : Int) :
    (getTaskCounts tasks (today * 86400000)).total = tasks.length ∧
      (getTaskCounts tasks (today * 86400000)).completed
        = (tasks.filter (fun t => t.completed)).length ∧
      (getTaskCounts tasks (today * 86400000)).overdue
        = (tasks.filter (specOverdueDay today)).length ∧
      (getTaskCounts tasks (today * 86400000)).highPriority
        = (tasks.filter (fun t =>
            decide (t.priority = Priority.High) && !t.completed)).length ∧
      ∀ b : Bool,
        (getTaskCounts (tasks.map (fun t => { t with completed := b }))
            (today * 86400000)).overdue
          = (getTaskCounts tasks (today * 86400000)).overdue := by
  have hpt : ∀ t : Task,
      (t.dueDate.isSome && isTaskOverdue t.dueDate (today * 86400000))
        = specOverdueDay today t := by
    intro t
    cases ht : t.dueDate with
    | none => simp [isTaskOverdue, specOverdueDay, ht]
    | some dd =>
      simp only [isTaskOverdue, specOverdueDay, ht, Option.isSome_some, Bool.true_and]
      rw [decide_eq_decide]
      exact (Int.ediv_lt_iff_lt_mul (by omega)).symm
  refine ⟨rfl, rfl, ?_, rfl, ?_⟩
  · simp only [getTaskCounts]
    exact congrArg List.length (List.filter_congr fun t _ => hpt t)
  · intro b
    simp only [getTaskCounts]
    rw [List.filter_map, List.length_map]
    exact congrArg List.length (List.filter_congr fun t _ => rfl)

end TaskListManager
